import Mathlib

/-!
Verification of the section-boundary detection engine of the
Contracts_DocSplit repository against its natural-language specification.

The Python sources are shallowly embedded: per-page text corpora become
`List String`, page indices become `Nat` (0-based internally, 1-based in
the persisted form), detectors become pure Lean functions mirroring the
control flow of `core/contratos/section_detector.py`,
`core/contratos/processor.py` and `core/renovaciones/divider.py`.
Python case folding is modelled for the ASCII and Latin-1 letters that
occur in the pattern library; the two regular expressions used by the
near-empty-page heuristic and the three date-extraction regular
expressions are embedded as deterministic character-level matchers
(their quantifiers are all followed by disjoint character classes, so
greedy maximal-munch matching coincides with the backtracking
semantics of the Python `re` module).
-/

set_option maxRecDepth 10000

namespace DocSplit

/-! ### Character classes and Python-style case folding -/

/-- Python `str.lower` restricted to ASCII and Latin-1 letters
(the only characters occurring in the pattern library). -/
def pyLower (c : Char) : Char :=
  if 'A' ≤ c ∧ c ≤ 'Z' then Char.ofNat (c.toNat + 32)
  else if 'À' ≤ c ∧ c ≤ 'Þ' ∧ c ≠ '×' then Char.ofNat (c.toNat + 32)
  else c

/-- Python `str.upper` restricted to ASCII and Latin-1 letters. -/
def pyUpper (c : Char) : Char :=
  if 'a' ≤ c ∧ c ≤ 'z' then Char.ofNat (c.toNat - 32)
  else if 'à' ≤ c ∧ c ≤ 'þ' ∧ c ≠ '÷' then Char.ofNat (c.toNat - 32)
  else c

/-- ASCII whitespace, the characters stripped by Python `str.strip`
and matched by the regex class backslash-s on the texts at hand. -/
def esEspacio (c : Char) : Bool :=
  c = ' ' ∨ c = '\t' ∨ c = '\n' ∨ c = '\r' ∨ c = Char.ofNat 11 ∨ c = Char.ofNat 12

/-- ASCII decimal digit, the regex class `[0-9]`. -/
def esDigito (c : Char) : Bool := '0' ≤ c ∧ c ≤ '9'

/-- Word character for the regex class backslash-w, over the alphabet
occurring in the documents (ASCII letters, digits, underscore and
Latin-1 letters). -/
def esLetraPalabra (c : Char) : Bool :=
  ('a' ≤ c ∧ c ≤ 'z') ∨ ('A' ≤ c ∧ c ≤ 'Z') ∨ ('0' ≤ c ∧ c ≤ '9') ∨ c = '_' ∨
    ('À' ≤ c ∧ c ≤ 'ÿ' ∧ c ≠ '×' ∧ c ≠ '÷')

/-! ### Substring search (Python `in`), strip, lower, upper -/

/-- Whether `n` is a leading segment of `h`. -/
def esInicioDe : List Char → List Char → Bool
  | [], _ => true
  | _ :: _, [] => false
  | a :: as, b :: bs => a = b && esInicioDe as bs

/-- Python substring containment `n in h` over character lists. -/
def contieneL (n : List Char) : List Char → Bool
  | [] => n.isEmpty
  | c :: t => esInicioDe n (c :: t) || contieneL n t

/-- Lower-cased character list of a string, modelling `texto.lower()`. -/
def minusTxt (s : String) : List Char := s.data.map pyLower

/-- Upper-cased character list of a string, modelling `texto.upper()`. -/
def mayusTxt (s : String) : List Char := s.data.map pyUpper

/-- Python `texto.strip()` over character lists. -/
def recorta (s : List Char) : List Char :=
  ((s.dropWhile esEspacio).reverse.dropWhile esEspacio).reverse

/-- Case-insensitive containment `patron.lower() in texto.lower()`. -/
def contieneMinus (texto : String) (patron : String) : Bool :=
  contieneL (patron.data.map pyLower) (minusTxt texto)

/-- Case-sensitive containment `patron in texto`. -/
def contieneCS (texto : String) (patron : String) : Bool :=
  contieneL patron.data texto.data

/-- The page of index `i` of a corpus (detectors only index valid pages). -/
def pagina (ps : List String) (i : Nat) : String := ps.getD i ""

/-! ### Generic bounded searches used to embed Python `for` loops -/

/-- First index `i` with `lo ≤ i < lo + fuel` and `P i`, the embedding of a
`for` loop with an early `return`/`break` on `P`. -/
def buscaDesde (P : Nat → Bool) : Nat → Nat → Option Nat
  | _, 0 => none
  | lo, fuel + 1 => if P lo then some lo else buscaDesde P (lo + 1) fuel

/-- Search over a whole corpus of `n` pages starting at index 0. -/
def busca (P : Nat → Bool) (n : Nat) : Option Nat := buscaDesde P 0 n

/-- Length of the maximal run of consecutive indices starting at `lo`
satisfying `P`, capped at `fuel` — the embedding of a `while`-style
extension loop that stops at the first failure. -/
def racha (P : Nat → Bool) : Nat → Nat → Nat
  | _, 0 => 0
  | lo, fuel + 1 => if P lo then racha P (lo + 1) fuel + 1 else 0

/-- Whether all indices `lo ≤ i < lo + fuel` satisfy `Q`, the embedding of
`all(... for pag in range(a, b))`. -/
def todasDesde (Q : Nat → Bool) : Nat → Nat → Bool
  | _, 0 => true
  | lo, fuel + 1 => Q lo && todasDesde Q (lo + 1) fuel

/-- Increasing list of the indices `lo ≤ i < lo + fuel` with `P i`, the
embedding of building a candidate list inside a `for` loop. -/
def indicesDesde (P : Nat → Bool) : Nat → Nat → List Nat
  | _, 0 => []
  | lo, fuel + 1 =>
    if P lo then lo :: indicesDesde P (lo + 1) fuel else indicesDesde P (lo + 1) fuel

theorem buscaDesde_some {P : Nat → Bool} :
    ∀ {fuel lo i : Nat}, buscaDesde P lo fuel = some i →
      lo ≤ i ∧ i < lo + fuel ∧ P i = true ∧ ∀ j, lo ≤ j → j < i → P j = false := by
  intro fuel
  induction fuel with
  | zero => intro lo i h; simp [buscaDesde] at h
  | succ f ih =>
    intro lo i h
    simp only [buscaDesde] at h
    by_cases hP : P lo
    · simp [hP] at h
      subst h
      exact ⟨Nat.le_refl _, by omega, hP, fun j hj hj2 => absurd (Nat.lt_of_le_of_lt hj hj2) (Nat.lt_irrefl _)⟩
    · simp [hP] at h
      obtain ⟨h1, h2, h3, h4⟩ := ih h
      refine ⟨by omega, by omega, h3, ?_⟩
      intro j hj hji
      rcases Nat.eq_or_lt_of_le hj with rfl | hlt
      · exact Bool.of_not_eq_true hP
      · exact h4 j hlt hji

theorem buscaDesde_none {P : Nat → Bool} :
    ∀ {fuel lo : Nat}, buscaDesde P lo fuel = none ↔ ∀ j, lo ≤ j → j < lo + fuel → P j = false := by
  intro fuel
  induction fuel with
  | zero => intro lo; simp [buscaDesde]; omega
  | succ f ih =>
    intro lo
    simp only [buscaDesde]
    by_cases hP : P lo = true
    · rw [if_pos hP]
      simp only [reduceCtorEq, false_iff, not_forall]
      exact ⟨lo, Nat.le_refl _, by omega, by simp [hP]⟩
    · rw [if_neg hP, ih]
      constructor
      · intro h j hj hj2
        rcases Nat.eq_or_lt_of_le hj with rfl | hlt
        · exact Bool.of_not_eq_true hP
        · exact h j hlt (by omega)
      · intro h j hj hj2
        exact h j (by omega) (by omega)

theorem buscaDesde_first {P : Nat → Bool} :
    ∀ {fuel lo i : Nat}, lo ≤ i → i < lo + fuel → P i = true →
      (∀ j, lo ≤ j → j < i → P j = false) → buscaDesde P lo fuel = some i := by
  intro fuel
  induction fuel with
  | zero => intro lo i h1 h2; omega
  | succ f ih =>
    intro lo i h1 h2 h3 h4
    simp only [buscaDesde]
    rcases Nat.eq_or_lt_of_le h1 with rfl | hlt
    · simp [h3]
    · have : P lo = false := h4 lo (Nat.le_refl _) hlt
      simp [this]
      exact ih (by omega) (by omega) h3 (fun j hj hji => h4 j (by omega) hji)

theorem racha_spec {P : Nat → Bool} :
    ∀ {fuel lo : Nat},
      racha P lo fuel ≤ fuel ∧
      (∀ k, k < racha P lo fuel → P (lo + k) = true) ∧
      (racha P lo fuel < fuel → P (lo + racha P lo fuel) = false) := by
  intro fuel
  induction fuel with
  | zero => intro lo; simp [racha]
  | succ f ih =>
    intro lo
    simp only [racha]
    by_cases hP : P lo
    · simp [hP]
      obtain ⟨ih1, ih2, ih3⟩ := @ih (lo + 1)
      refine ⟨by omega, ?_, ?_⟩
      · intro k hk
        match k with
        | 0 => simpa using hP
        | Nat.succ k' =>
          have := ih2 k' (by omega)
          simpa [Nat.add_comm, Nat.add_left_comm, Nat.add_assoc] using this
      · intro hlt
        have := ih3 (by omega)
        simpa [Nat.add_comm, Nat.add_left_comm, Nat.add_assoc] using this
    · simp [hP]

theorem todasDesde_spec {Q : Nat → Bool} :
    ∀ {fuel lo : Nat}, todasDesde Q lo fuel = true ↔ ∀ j, lo ≤ j → j < lo + fuel → Q j = true := by
  intro fuel
  induction fuel with
  | zero => intro lo; simp [todasDesde]; omega
  | succ f ih =>
    intro lo
    simp only [todasDesde, Bool.and_eq_true, ih]
    refine ⟨?_, ?_⟩
    · rintro ⟨hQ, h⟩ j hj hj2
      rcases Nat.eq_or_lt_of_le hj with rfl | hlt
      · exact hQ
      · exact h j hlt (by omega)
    · intro h
      exact ⟨h lo (Nat.le_refl _) (by omega), fun j hj hj2 => h j (by omega) (by omega)⟩

theorem mem_indicesDesde {P : Nat → Bool} :
    ∀ {fuel lo j : Nat}, j ∈ indicesDesde P lo fuel ↔ lo ≤ j ∧ j < lo + fuel ∧ P j = true := by
  intro fuel
  induction fuel with
  | zero => intro lo j; simp [indicesDesde]; omega
  | succ f ih =>
    intro lo j
    simp only [indicesDesde]
    by_cases hP : P lo = true
    · rw [if_pos hP]
      simp only [List.mem_cons, ih]
      refine ⟨?_, ?_⟩
      · rintro (rfl | ⟨h1, h2, h3⟩)
        · exact ⟨Nat.le_refl _, by omega, hP⟩
        · exact ⟨by omega, by omega, h3⟩
      · rintro ⟨h1, h2, h3⟩
        rcases Nat.eq_or_lt_of_le h1 with rfl | hlt
        · exact Or.inl rfl
        · exact Or.inr ⟨hlt, by omega, h3⟩
    · rw [if_neg hP, ih]
      refine ⟨?_, ?_⟩
      · rintro ⟨h1, h2, h3⟩
        exact ⟨by omega, by omega, h3⟩
      · rintro ⟨h1, h2, h3⟩
        rcases Nat.eq_or_lt_of_le h1 with rfl | hlt
        · exact absurd h3 hP
        · exact ⟨hlt, by omega, h3⟩

theorem indicesDesde_head {P : Nat → Bool} :
    ∀ {fuel lo j : Nat} {r : List Nat}, indicesDesde P lo fuel = j :: r →
      lo ≤ j ∧ P j = true ∧ ∀ k, lo ≤ k → k < j → P k = false := by
  intro fuel
  induction fuel with
  | zero => intro lo j r h; simp [indicesDesde] at h
  | succ f ih =>
    intro lo j r h
    simp only [indicesDesde] at h
    by_cases hP : P lo = true
    · rw [if_pos hP] at h
      injection h with h1 h2
      subst h1
      exact ⟨Nat.le_refl _, hP, fun k hk hk2 => by omega⟩
    · rw [if_neg hP] at h
      obtain ⟨h1, h2, h3⟩ := ih h
      refine ⟨by omega, h2, ?_⟩
      intro k hk hk2
      rcases Nat.eq_or_lt_of_le hk with rfl | hlt
      · exact Bool.of_not_eq_true hP
      · exact h3 k hlt hk2

theorem indicesDesde_pairwise {P : Nat → Bool} :
    ∀ {fuel lo : Nat}, (indicesDesde P lo fuel).Pairwise (· < ·) := by
  intro fuel
  induction fuel with
  | zero => intro lo; simp [indicesDesde]
  | succ f ih =>
    intro lo
    simp only [indicesDesde]
    by_cases hP : P lo = true
    · rw [if_pos hP]
      refine List.Pairwise.cons ?_ ih
      intro b hb
      have := mem_indicesDesde.mp hb
      omega
    · rw [if_neg hP]
      exact ih

/-! ### Pattern library (`SectionDetector.PATRONES`) -/

/-- Tier-1 start markers of the tax-registration certificate
(`PATRONES["alta_sunat"]["inicio_primario"]`). -/
def patronesSunatPrimario : List String :=
  ["Formulario 1604",
   "Comprobante de Información Registrada",
   "se realizó satisfactoriamente la modificacion del registro del trabajador",
   "CONSTANCIA DE MODIFICACIÓN O ACTUALIZACIÓN DE DATOS"]

/-- Tier-2 start markers (`PATRONES["alta_sunat"]["inicio_secundario"]`). -/
def patronesSunatSecundario : List String :=
  ["T-Registro: Registro de Prestadores",
   "T-REGISTRO",
   "T - Registro",
   "T-REGISTRO: REGISTRO DE PRESTADORES"]

/-- Finish markers of the tax registration (`PATRONES["alta_sunat"]["fin"]`). -/
def patronesSunatFin : List String :=
  ["¿Aplica convenio para evitar doble imposición?",
   "Aplica convenio para evitar doble imposición",
   "convenio para evitar doble imposición"]

/-- Hazard-guide title patterns (`PATRONES["guia_peligros"]["titulo"]`). -/
def patronesGuiaTitulo : List String :=
  ["Guía de tipos de peligros y riesgos asociados",
   "GuÃ­a de tipos de peligros"]

/-- Hazard-guide validation markers (`PATRONES["guia_peligros"]["validacion"]`). -/
def patronesGuiaValidacion : List String :=
  ["PELIGROS",
   "RIESGOS",
   "EVENTO O EXPOSICIÓN PELIGROSA",
   "DAÑO O DETERIORO DE LA SALUD",
   "Peligros Mecánicos",
   "Peligros Eléctricos",
   "Peligros Químicos"]

/-- Hazard-guide continuation markers (`PATRONES["guia_peligros"]["continuacion"]`). -/
def patronesGuiaContinuacion : List String :=
  ["PELIGROS",
   "RIESGOS",
   "DAÑO O DETERIORO",
   "Page",
   "Peligros",
   "Riesgos"]

/-- Reimbursement-policy title patterns (`PATRONES["politica_reembolso"]["titulo"]`). -/
def patronesReembolsoTitulo : List String :=
  ["Política de gestión de viajes y reembolso",
   "PolÃ­tica de gestiÃ³n de viajes",
   "política de reembolso"]

/-- Reimbursement signed-acknowledgment patterns
(`PATRONES["politica_reembolso"]["constancia"]`). -/
def patronesReembolsoConstancia : List String :=
  ["constancia", "he recibido", "firmo", "firma"]

/-- RISST 2025 phrase set (`PATRONES["risst_2025"]`). -/
def patronesRisst2025 : List String :=
  ["Reglamento Interno de Seguridad",
   "Reglamento Interno De Seguridad Y Salud En El Trabajo",
   "CERTIFICACIÓN Y COMPROMISO",
   "Certificado de Recepción y Compromiso",
   "RISST",
   "RISTT",
   "habiendo recibido una copia del presente",
   "declaro haber tomado pleno conocimiento del contenido"]

/-- Known section-title patterns used by `_encontrar_siguiente_seccion`. -/
def patronesSecciones : List String :=
  ["GUÍA DE TIPOS DE PELIGROS",
   "GUIA DE TIPOS DE PELIGROS",
   "POLÍTICA DE GESTIÓN",
   "POLITICA DE GESTION",
   "POLÍTICA DE COMPORTAMIENTO",
   "POLITICA DE COMPORTAMIENTO",
   "POLICY",
   "CONSTANCIA DE RECEPCIÓN",
   "CONSTANCIA DE RECEPCION",
   "CONSTANCIA DE ENTREGA",
   "CÓDIGO DE CONDUCTA",
   "CODIGO DE CONDUCTA",
   "REGLAMENTO INTERNO",
   "CERTIFICACIÓN Y COMPROMISO"]

/-- Excluded-content patterns of `_es_pagina_vacia_o_firma` (criterion 3). -/
def patronesExcluidos : List String :=
  ["CONSTANCIA",
   "POLÍTICA",
   "POLITICA",
   "REGLAMENTO",
   "CÓDIGO",
   "CODIGO",
   "PELIGROS",
   "FORMULARIO",
   "GUÍA",
   "GUIA",
   "Document Title",
   "Position of document",
   "Policy"]

/-- Case-insensitive any-pattern check,
`any(patron.lower() in texto.lower() for patron in patrones)`. -/
def algunPatronMinus (pats : List String) (texto : String) : Bool :=
  pats.any fun p => contieneMinus texto p

/-- Case-insensitive pattern count, the embedding of `_contar_coincidencias`
(the patterns are literal strings, so `re.search(patron, texto, IGNORECASE)`
is case-insensitive substring containment). -/
def contarCoincidencias (texto : String) (pats : List String) : Nat :=
  pats.countP fun p => contieneMinus texto p

/-- Case-sensitive pattern count, `sum(1 for patron in patrones if patron in texto)`. -/
def cuentaCS (pats : List String) (texto : String) : Nat :=
  pats.countP fun p => contieneCS texto p

/-! ### Section detectors (initial-contract family) -/

/-- End-of-contract trigger of `_detectar_contrato`:
`"constancia de alta" in texto_lower or "formulario 1604" in texto_lower`. -/
def finContratoHit (texto : String) : Bool :=
  contieneL "constancia de alta".data (minusTxt texto) ||
    contieneL "formulario 1604".data (minusTxt texto)

/-- Embedding of `_detectar_contrato`: start is fixed at page 0; the end is
the page before the first page containing either trigger, clamped at 0; when
no page matches, `(0, 0)` is returned. -/
def detectarContrato (ps : List String) : Nat × Nat :=
  match busca (fun i => finContratoHit (pagina ps i)) ps.length with
  | some i => (0, if 0 < i then i - 1 else 0)
  | none => (0, 0)

/-- Tier-1 page test of `_detectar_alta_sunat`. -/
def priSunat (texto : String) : Bool := algunPatronMinus patronesSunatPrimario texto

/-- Tier-2 page test of `_detectar_alta_sunat`. -/
def secSunat (texto : String) : Bool := algunPatronMinus patronesSunatSecundario texto

/-- Finish-marker page test of `_detectar_alta_sunat`. -/
def finSunatHit (texto : String) : Bool := algunPatronMinus patronesSunatFin texto

/-- Embedding of `_detectar_alta_sunat`: tier-1 scan, tier-2 scan only when
tier 1 finds nothing, then a finish-marker scan from the start page
(defaulting the end to the start page). -/
def detectarAltaSunat (ps : List String) : Option Nat × Option Nat :=
  match
    (match busca (fun i => priSunat (pagina ps i)) ps.length with
     | some i => some i
     | none => busca (fun i => secSunat (pagina ps i)) ps.length) with
  | none => (none, none)
  | some s =>
    (some s,
     some ((buscaDesde (fun i => finSunatHit (pagina ps i)) s (ps.length - s)).getD s))

/-- Title test of `_detectar_guia_peligros` (case-insensitive). -/
def tituloGuia (texto : String) : Bool := algunPatronMinus patronesGuiaTitulo texto

/-- Validation count of `_detectar_guia_peligros` (case-sensitive `in`). -/
def valGuia (texto : String) : Nat := cuentaCS patronesGuiaValidacion texto

/-- Continuation count of `_detectar_guia_peligros` (case-sensitive `in`). -/
def contGuia (texto : String) : Nat := cuentaCS patronesGuiaContinuacion texto

/-- Search origin of `_detectar_guia_peligros`:
`fin_sunat + 1 if fin_sunat is not None else 0`. -/
def inicioBusquedaGuia : Option Nat → Nat
  | some f => f + 1
  | none => 0

/-- Embedding of `_detectar_guia_peligros`: search from `fin_sunat + 1` for a
page with a title hit and at least 2 validation markers, then extend the end
over consecutive pages holding at least 3 continuation markers, stopping at
the first failure (or the end of the document — the loop has no window cap). -/
def detectarGuiaPeligros (ps : List String) (finSunat : Option Nat) : Option Nat × Option Nat :=
  match buscaDesde
      (fun i => tituloGuia (pagina ps i) && decide (2 ≤ valGuia (pagina ps i)))
      (inicioBusquedaGuia finSunat) (ps.length - inicioBusquedaGuia finSunat) with
  | none => (none, none)
  | some s =>
    (some s,
     some (s + racha (fun i => decide (3 ≤ contGuia (pagina ps i))) (s + 1)
       (ps.length - (s + 1))))

/-- Title test of `_detectar_politica_reembolso`. -/
def tituloReembolso (texto : String) : Bool := algunPatronMinus patronesReembolsoTitulo texto

/-- Signed-acknowledgment test of `_detectar_politica_reembolso`
(the patterns are already lower case in the source and are matched
against `texto.lower()`). -/
def constanciaReembolso (texto : String) : Bool :=
  patronesReembolsoConstancia.any fun p => contieneL p.data (minusTxt texto)

/-- Embedding of `_detectar_politica_reembolso`: collect all title-matching
pages, scan them from the last backwards for one with an acknowledgment
pattern, and fall back to the first title-matching page. -/
def detectarPoliticaReembolso (ps : List String) : Option Nat × Option Nat :=
  match indicesDesde (fun i => tituloReembolso (pagina ps i)) 0 ps.length with
  | [] => (none, none)
  | p0 :: rest =>
    match (p0 :: rest).reverse.find? (fun i => constanciaReembolso (pagina ps i)) with
    | some p => (some p, some p)
    | none => (some p0, some p0)

/-- RISST 2025 match count of a page. -/
def cuentaRisst (texto : String) : Nat := contarCoincidencias texto patronesRisst2025

/-- Candidate pages of `_detectar_risst_2025`: each page holding at least 2
pattern matches, paired with its match count, in page order. -/
def candidatosRisst (ps : List String) : List (Nat × Nat) :=
  (indicesDesde (fun i => decide (2 ≤ cuentaRisst (pagina ps i))) 0 ps.length).map
    fun i => (i, cuentaRisst (pagina ps i))

/-- Head of the stable sort by descending match count: the element with the
maximal count, the earliest one among equals (Python `list.sort` is stable,
so `sort(key=..., reverse=True)` keeps the original order of tied pages and
`[0]` picks the first-seen maximal page). -/
def mejorPagina : List (Nat × Nat) → Option (Nat × Nat)
  | [] => none
  | x :: xs =>
    match mejorPagina xs with
    | none => some x
    | some y => if x.2 < y.2 then some y else some x

/-- Embedding of `_detectar_risst_2025`. -/
def detectarRisst2025 (ps : List String) : Option Nat × Option Nat :=
  match mejorPagina (candidatosRisst ps) with
  | some y => (some y.1, some y.1)
  | none => (none, none)

/-! ### Deterministic character-level matchers for the two regular
expressions of `_es_pagina_vacia_o_firma`. Every quantifier in these
patterns is followed by a disjoint character class, so greedy
maximal-munch matching is equivalent to Python backtracking. -/

/-- Strip a literal from the head of a character list. -/
def quitaLit : List Char → List Char → Option (List Char)
  | [], s => some s
  | _ :: _, [] => none
  | c :: cs, x :: xs => if c = x then quitaLit cs xs else none

/-- Split off the maximal run of characters satisfying `q` (its length and
the remainder). -/
def tomaMientras (q : Char → Bool) : List Char → Nat × List Char
  | [] => (0, [])
  | c :: t => if q c then ((tomaMientras q t).1 + 1, (tomaMientras q t).2) else (0, c :: t)

/-- Strip a non-empty maximal run of characters satisfying `q` (the `+`
quantifier before a disjoint continuation). -/
def quitaClase1 (q : Char → Bool) (s : List Char) : Option (List Char) :=
  if (tomaMientras q s).1 = 0 then none else some (tomaMientras q s).2

/-- Match of the signature pattern
`\([0-9]{1,2}\s+\w+\.\.\s+[0-9]{4}\s+[0-9]{2}:[0-9]{2}:[0-9]{2}\s+(EST|CDT)\)`
at the head of `s`; yields the remainder after the match. -/
def firmaDesde (s : List Char) : Option (List Char) := do
  let s1 ← quitaLit "(".data s
  let (d1, s2) := tomaMientras esDigito s1
  guard (1 ≤ d1 ∧ d1 ≤ 2)
  let s3 ← quitaClase1 esEspacio s2
  let s4 ← quitaClase1 esLetraPalabra s3
  let s5 ← quitaLit "..".data s4
  let s6 ← quitaClase1 esEspacio s5
  let (d2, s7) := tomaMientras esDigito s6
  guard (d2 = 4)
  let s8 ← quitaClase1 esEspacio s7
  let (d3, s9) := tomaMientras esDigito s8
  guard (d3 = 2)
  let s10 ← quitaLit ":".data s9
  let (d4, s11) := tomaMientras esDigito s10
  guard (d4 = 2)
  let s12 ← quitaLit ":".data s11
  let (d5, s13) := tomaMientras esDigito s12
  guard (d5 = 2)
  let s14 ← quitaClase1 esEspacio s13
  let s15 ← match quitaLit "EST".data s14 with
            | some r => pure r
            | none => quitaLit "CDT".data s14
  quitaLit ")".data s15

/-- Leftmost application of a positional matcher, the embedding of
`re.search`. -/
def buscaMatch {α : Type} (m : List Char → Option α) : List Char → Option α
  | [] => m []
  | c :: t =>
    match m (c :: t) with
    | some r => some r
    | none => buscaMatch m t

/-- Removal of all non-overlapping leftmost matches, the embedding of
`re.sub(patron, r'', texto)`; the fuel is the length of the text. -/
def subMatches (m : List Char → Option (List Char)) : Nat → List Char → List Char
  | 0, s => s
  | _ + 1, [] => []
  | fuel + 1, c :: t =>
    match m (c :: t) with
    | some r => subMatches m fuel r
    | none => c :: subMatches m fuel t

/-- Match of the name pattern `[A-Z][a-z]+` at the head of `s`. -/
def mayusMinus : List Char → Option (List Char)
  | [] => none
  | c :: t => if 'A' ≤ c ∧ c ≤ 'Z' then quitaClase1 (fun d => 'a' ≤ d ∧ d ≤ 'z') t else none

/-- Greedy star over `\s+[A-Z][a-z]+` (each failed attempt is rolled back). -/
def estrellaNombre : Nat → List Char → List Char
  | 0, s => s
  | fuel + 1, s =>
    match (quitaClase1 esEspacio s).bind mayusMinus with
    | some r => estrellaNombre fuel r
    | none => s

/-- Match of the name pattern `[A-Z][a-z]+(\s+[A-Z][a-z]+)*` at the head. -/
def nombreDesde (s : List Char) : Option (List Char) :=
  (mayusMinus s).map (estrellaNombre s.length)

/-- Criterion 3 of `_es_pagina_vacia_o_firma`: the source loop returns
`False` when an excluded pattern occurs in the upper-cased text, and the
function also returns `False` after the loop, so both paths yield `False`. -/
def chequeoExcluidos (texto : List Char) : Bool :=
  if patronesExcluidos.any (fun p => contieneL p.data (texto.map pyUpper)) then false
  else false

/-- Embedding of `_es_pagina_vacia_o_firma`: a page is near-empty when its
stripped text has fewer than 150 characters, or it holds a signature match
and fewer than 50 characters remain after deleting the signature and the
capitalised name groups; otherwise the excluded-pattern loop runs and the
page is not near-empty. -/
def esPaginaVaciaOFirma (ps : List String) (idx : Nat) : Bool :=
  if ps.length ≤ idx then false
  else
    let texto := (pagina ps idx).data
    if (recorta texto).length < 150 then true
    else if (buscaMatch firmaDesde texto).isSome then
      let sinFirma := subMatches firmaDesde texto.length texto
      let sinNombre := subMatches nombreDesde sinFirma.length sinFirma
      if (recorta sinNombre).length < 50 then true
      else chequeoExcluidos texto
    else chequeoExcluidos texto

/-- Embedding of `_encontrar_siguiente_seccion`: first page from `desde`
holding a known section-title pattern in its upper-cased text and more than
200 stripped characters. -/
def encontrarSiguienteSeccion (ps : List String) (desde : Nat) : Option Nat :=
  buscaDesde
    (fun i => patronesSecciones.any (fun p => contieneL p.data (mayusTxt (pagina ps i))) &&
      decide (200 < (recorta (pagina ps i).data).length))
    desde (ps.length - desde)

/-- Priority 1 of `_detectar_alta_derechohabiente`: the whole gap between
the tax-registration end and the next known section, provided every page of
the gap is near-empty. -/
def dhPrioridad1 (ps : List String) (finAlta : Option Nat) : Option (Nat × Nat) :=
  match finAlta with
  | none => none
  | some fa =>
    match encontrarSiguienteSeccion ps (fa + 1) with
    | none => none
    | some sig =>
      if fa + 1 ≤ sig - 1 ∧ fa + 1 < ps.length then
        if todasDesde (esPaginaVaciaOFirma ps) (fa + 1) (sig - 1 + 1 - (fa + 1)) then
          some (fa + 1, sig - 1)
        else none
      else none

/-- Priority 2: the single page before the hazard guide, when near-empty. -/
def dhPrioridad2 (ps : List String) (inicioGuia : Option Nat) : Option (Nat × Nat) :=
  match inicioGuia with
  | none => none
  | some g =>
    if 0 < g then
      if esPaginaVaciaOFirma ps (g - 1) then some (g - 1, g - 1) else none
    else none

/-- Priority 3: the single page after the tax registration, when near-empty. -/
def dhPrioridad3 (ps : List String) (finAlta : Option Nat) : Option (Nat × Nat) :=
  match finAlta with
  | none => none
  | some fa =>
    if fa < ps.length - 1 then
      if esPaginaVaciaOFirma ps (fa + 1) then some (fa + 1, fa + 1) else none
    else none

/-- Embedding of `_detectar_alta_derechohabiente`: the three prioritised
strategies tried in order. -/
def detectarAltaDerechohabiente (ps : List String) (finAlta inicioGuia : Option Nat) :
    Option Nat × Option Nat :=
  match dhPrioridad1 ps finAlta with
  | some (i, f) => (some i, some f)
  | none =>
    match dhPrioridad2 ps inicioGuia with
    | some (i, f) => (some i, some f)
    | none =>
      match dhPrioridad3 ps finAlta with
      | some (i, f) => (some i, some f)
      | none => (none, none)

/-! ### Range formatting and the extraction-pass range logic -/

/-- Embedding of `_format_rango`: 0-based indices become 1-based page
numbers; `None, None` becomes `null`. -/
def formatRango : Option Nat × Option Nat → Option (Option Nat × Option Nat)
  | (none, none) => none
  | (i, f) => some (i.map (· + 1), f.map (· + 1))

/-- The two `ValueError` cases of `extraer_seccion_pdf`. -/
inductive ErrorExtraccion
  | inicioExcede
  | rangoInvalido
deriving DecidableEq, Repr

/-- Integer interval `[a, b)` as a list, the pages visited by
`for i in range(inicio, fin)`. -/
def rangoInt (a b : Int) : List Int :=
  (List.range (b - a).toNat).map fun (k : Nat) => a + (k : Int)

/-- Embedding of the page-range logic of `extraer_seccion_pdf`
(`core/renovaciones/divider.py`): 1-based bounds from the JSON are
converted to a 0-based half-open range, the end is clamped to the document
length, and two validations may raise; on success the copied 0-based page
indices are returned. -/
def extraerSeccionPdfRango (inicio fin total : Int) : Except ErrorExtraccion (List Int) :=
  if total ≤ max (inicio - 1) 0 then .error .inicioExcede
  else if min fin total ≤ max (inicio - 1) 0 then .error .rangoInvalido
  else .ok (rangoInt (max (inicio - 1) 0) (min fin total))

/-- Embedding of the page-range logic of `extraer_seccion`
(`core/contratos/processor.py`): same clamping, no validation — an
out-of-range request yields an empty page list instead of an error. -/
def extraerSeccionRango (inicio fin total : Int) : List Int :=
  rangoInt (max (inicio - 1) 0) (min fin total)

/-! ### Date extraction (`_extraer_fecha_sunat`, `_convertir_fecha_a_formato`) -/

/-- Capture of `(\d{2}/\d{2}/\d{4})` at the head of a character list. -/
def leeFecha : List Char → Option String
  | d1 :: d2 :: '/' :: m1 :: m2 :: '/' :: y1 :: y2 :: y3 :: y4 :: _ =>
    if esDigito d1 && esDigito d2 && esDigito m1 && esDigito m2 &&
        esDigito y1 && esDigito y2 && esDigito y3 && esDigito y4 then
      some (String.mk [d1, d2, '/', m1, m2, '/', y1, y2, y3, y4])
    else none
  | _ => none

/-- Tail of the primary pattern after the lazy gap:
`Fecha de inicio\s+Fecha de fin\s+Motivo de baja\s+(\d{2}/\d{2}/\d{4})`. -/
def matchFechaTabla (s : List Char) : Option String := do
  let s1 ← quitaLit "Fecha de inicio".data s
  let s2 ← quitaClase1 esEspacio s1
  let s3 ← quitaLit "Fecha de fin".data s2
  let s4 ← quitaClase1 esEspacio s3
  let s5 ← quitaLit "Motivo de baja".data s4
  let s6 ← quitaClase1 esEspacio s5
  leeFecha s6

/-- Primary date pattern
`Periodos laborales:.*?Fecha de inicio\s+Fecha de fin\s+Motivo de baja\s+(\d{2}/\d{2}/\d{4})`
with `re.DOTALL` (the lazy gap spans newlines, so the capture is the
earliest tail match after the leftmost viable literal). -/
def patronPrincipal (texto : List Char) : Option String :=
  buscaMatch
    (fun s => (quitaLit "Periodos laborales:".data s).bind (buscaMatch matchFechaTabla))
    texto

/-- Secondary date pattern `Fecha de inicio[:\s]+(\d{2}/\d{2}/\d{4})`. -/
def patronSecundario (texto : List Char) : Option String :=
  buscaMatch
    (fun s => ((quitaLit "Fecha de inicio".data s).bind
      (quitaClase1 (fun c => c = ':' || esEspacio c))).bind leeFecha)
    texto

/-- Tertiary date pattern `Periodos laborales:.*?(\d{2}/\d{2}/\d{4})` with
`re.DOTALL`. -/
def patronTerciario (texto : List Char) : Option String :=
  buscaMatch
    (fun s => (quitaLit "Periodos laborales:".data s).bind (buscaMatch leeFecha))
    texto

/-- Concatenation of the page texts `lo, lo+1, ...` (`fuel` pages). -/
def concatPaginas (ps : List String) : Nat → Nat → List Char
  | _, 0 => []
  | lo, fuel + 1 => (pagina ps lo).data ++ concatPaginas ps (lo + 1) fuel

/-- The text scanned by `_extraer_fecha_sunat`: at most 3 pages from the
tax-registration start, bounded by its end + 1 and the document length. -/
def textoSunat (ps : List String) (inicioS : Nat) (finS : Option Nat) : List Char :=
  let fin1 := min (finS.getD inicioS + 1) (inicioS + 3)
  concatPaginas ps inicioS (min fin1 ps.length - inicioS)

/-- Python `str.split(sep)` for a one-character separator. -/
def separa (c : Char) : List Char → List (List Char)
  | [] => [[]]
  | x :: t =>
    if x = c then [] :: separa c t
    else
      match separa c t with
      | h :: r => (x :: h) :: r
      | [] => [[x]]

/-- Python `str.isdigit` over the ASCII digits occurring in the captures. -/
def esNumerico (s : List Char) : Bool := !s.isEmpty && s.all esDigito

/-- Python `int` on a digit string. -/
def natDe (s : List Char) : Nat := s.foldl (fun n c => n * 10 + (c.toNat - '0'.toNat)) 0

/-- Gregorian leap year, as validated by `datetime`. -/
def bisiesto (y : Nat) : Bool := y % 4 = 0 && (y % 100 ≠ 0 || y % 400 = 0)

/-- Days of a month, as validated by `datetime`. -/
def diasMes (y m : Nat) : Nat :=
  if m = 2 then (if bisiesto y then 29 else 28)
  else if m = 4 ∨ m = 6 ∨ m = 9 ∨ m = 11 then 30
  else 31

/-- Whether `datetime(anio, mes, dia)` succeeds (year bounds `MINYEAR = 1`,
`MAXYEAR = 9999`). -/
def fechaValida (dia mes anio : Nat) : Bool :=
  1 ≤ anio && anio ≤ 9999 && 1 ≤ mes && mes ≤ 12 && 1 ≤ dia && dia ≤ diasMes anio mes

/-- Python `str.zfill(2)`. -/
def zfill2 (s : List Char) : List Char :=
  if s.length < 2 then List.replicate (2 - s.length) '0' ++ s else s

/-- Embedding of `_convertir_fecha_a_formato`: split on `/`, require three
all-digit fields, validate the calendar date through `datetime` (a
`ValueError` is caught and turned into `None`), and format as `MM.YYYY`. -/
def convertirFecha (s : String) : Option String :=
  match separa '/' s.data with
  | [dia, mes, anio] =>
    if esNumerico dia && esNumerico mes && esNumerico anio then
      if fechaValida (natDe dia) (natDe mes) (natDe anio) then
        some (String.mk (zfill2 mes ++ '.' :: anio))
      else none
    else none
  | _ => none

/-- Embedding of `_extraer_fecha_sunat`: the three patterns are tried in
order of decreasing specificity on the concatenated tax-registration text;
the first capture is normalised (possibly to `None`); no section start means
`None`. -/
def extraerFechaSunat (ps : List String) (inicioS finS : Option Nat) : Option String :=
  match inicioS with
  | none => none
  | some i0 =>
    let t := textoSunat ps i0 finS
    match patronPrincipal t with
    | some d => convertirFecha d
    | none =>
      match patronSecundario t with
      | some d => convertirFecha d
      | none =>
        match patronTerciario t with
        | some d => convertirFecha d
        | none => none

/-! ### Overlap Resolver (renewal family) -/

/-- A detected page range of the renewal family. -/
structure RangoR where
  inicio : Nat
  fin : Nat
deriving DecidableEq, Repr

/-- Modelled from the spec: the renewal-family `SectionDetector`
(`core/renovaciones/section_detector.py`) is absent from the sources (the
file holds an unrelated controller), so the Overlap Resolver post-pass is
modelled from the specification text: if a lower-priority section's
detected start falls inside a higher-priority section's already-resolved
range (true containment), the lower-priority start is pushed to the
higher-priority end + 1; ranges are otherwise untouched. -/
def empujaInicio (r : RangoR) (mayor : Option RangoR) : RangoR :=
  match mayor with
  | none => r
  | some h => if h.inicio ≤ r.inicio ∧ r.inicio ≤ h.fin then ⟨h.fin + 1, r.fin⟩ else r

/-- Modelled from the spec: the Overlap Resolver runs once after the three
renewal sections are independently detected, in the fixed priority order
contract > hazard-guide > audit: the hazard guide is resolved against the
contract, then the audit against the contract and the resolved hazard
guide. -/
def resolverSolapamientos (contrato guia auditoria : Option RangoR) :
    Option RangoR × Option RangoR × Option RangoR :=
  (contrato,
   guia.map fun g => empujaInicio g contrato,
   auditoria.map fun a =>
     empujaInicio (empujaInicio a contrato) (guia.map fun g => empujaInicio g contrato))

/-! ### Auxiliary lemmas -/

theorem indicesDesde_nil {P : Nat → Bool} :
    ∀ {fuel lo : Nat}, indicesDesde P lo fuel = [] ↔ ∀ j, lo ≤ j → j < lo + fuel → P j = false := by
  intro fuel
  induction fuel with
  | zero => intro lo; simp [indicesDesde]; omega
  | succ f ih =>
    intro lo
    simp only [indicesDesde]
    by_cases hP : P lo = true
    · rw [if_pos hP]
      simp only [reduceCtorEq, false_iff, not_forall]
      exact ⟨lo, Nat.le_refl _, by omega, by simp [hP]⟩
    · rw [if_neg hP, ih]
      refine ⟨?_, ?_⟩
      · intro h j hj hj2
        rcases Nat.eq_or_lt_of_le hj with rfl | hlt
        · exact Bool.of_not_eq_true hP
        · exact h j hlt (by omega)
      · intro h j hj hj2
        exact h j (by omega) (by omega)

theorem mejorPagina_eq_none {l : List (Nat × Nat)} : mejorPagina l = none ↔ l = [] := by
  cases l with
  | nil => simp [mejorPagina]
  | cons x xs =>
    simp only [mejorPagina, reduceCtorEq, iff_false]
    cases h : mejorPagina xs with
    | none => simp
    | some y =>
      show ¬(if x.2 < y.2 then some y else some x) = none
      split <;> simp

theorem mejorPagina_spec {l : List (Nat × Nat)}
    (hl : l.Pairwise (fun p q => p.1 < q.1)) :
    ∀ {y}, mejorPagina l = some y →
      y ∈ l ∧ ∀ x ∈ l, x.2 ≤ y.2 ∧ (x.2 = y.2 → y.1 ≤ x.1) := by
  induction l with
  | nil => intro y h; simp [mejorPagina] at h
  | cons a xs ih =>
    intro y h
    obtain ⟨ha, hxs⟩ := List.pairwise_cons.mp hl
    simp only [mejorPagina] at h
    cases hm : mejorPagina xs with
    | none =>
      rw [hm] at h
      change some a = some y at h
      injection h with h
      subst h
      have hnil : xs = [] := mejorPagina_eq_none.mp hm
      subst hnil
      exact ⟨List.mem_cons_self _ _, by
        intro x hx
        rcases List.mem_cons.mp hx with rfl | hx
        · exact ⟨Nat.le_refl _, fun _ => Nat.le_refl _⟩
        · simp at hx⟩
    | some z =>
      rw [hm] at h
      change (if a.2 < z.2 then some z else some a) = some y at h
      obtain ⟨hz_mem, hz⟩ := ih hxs hm
      by_cases hlt : a.2 < z.2
      · rw [if_pos hlt] at h
        injection h with h
        subst h
        refine ⟨List.mem_cons_of_mem _ hz_mem, ?_⟩
        intro x hx
        rcases List.mem_cons.mp hx with rfl | hx
        · exact ⟨Nat.le_of_lt hlt, fun he => absurd he (by omega)⟩
        · exact hz x hx
      · rw [if_neg hlt] at h
        injection h with h
        subst h
        refine ⟨List.mem_cons_self _ _, ?_⟩
        intro x hx
        rcases List.mem_cons.mp hx with rfl | hx
        · exact ⟨Nat.le_refl _, fun _ => Nat.le_refl _⟩
        · obtain ⟨h1, _⟩ := hz x hx
          exact ⟨by omega, fun _ => Nat.le_of_lt (ha x hx)⟩

theorem mem_rangoInt {a b p : Int} : p ∈ rangoInt a b ↔ a ≤ p ∧ p < b := by
  simp only [rangoInt, List.mem_map, List.mem_range]
  constructor
  · rintro ⟨k, hk, rfl⟩
    omega
  · rintro ⟨h1, h2⟩
    exact ⟨(p - a).toNat, by omega, by omega⟩

/-! ### Claim C2 — initial-contract body boundaries -/

/-- C2, counterexample: on a three-page corpus in which no tax-registration
pattern (either tier) matches any page, `_detectar_contrato` returns the
first page as the end of the contract body, not the last page as the claim
states; moreover the start is fixed at page 0 without any title search. -/
theorem C2_counterexample :
    (∀ i, i < 3 → priSunat (pagina ["a", "b", "c"] i) = false ∧
      secSunat (pagina ["a", "b", "c"] i) = false) ∧
    detectarContrato ["a", "b", "c"] = (0, 0) ∧
    (["a", "b", "c"] : List String).length - 1 = 2 ∧ (0 : Nat) ≠ 2 := by
  decide

/-- C2, amended: `_detectar_contrato` fixes the start at page 0 (there is no
title search); the end is the page before the first page containing
`"constancia de alta"` or `"formulario 1604"` case-insensitively, clamped to
page 0 when the hit is page 0; when neither string occurs on any page the end
is page 0 — the first page, not the last. -/
theorem C2_amended (ps : List String) :
    (detectarContrato ps).1 = 0 ∧
    ((∀ i, i < ps.length → finContratoHit (pagina ps i) = false) →
      detectarContrato ps = (0, 0)) ∧
    (∀ i, i < ps.length → finContratoHit (pagina ps i) = true →
      (∀ j, j < i → finContratoHit (pagina ps j) = false) →
      (detectarContrato ps).2 = if 0 < i then i - 1 else 0) := by
  refine ⟨?_, ?_, ?_⟩
  · unfold detectarContrato
    cases h : busca (fun i => finContratoHit (pagina ps i)) ps.length <;> rfl
  · intro h
    unfold detectarContrato busca
    rw [buscaDesde_none.mpr (fun j _ hj => h j (by omega))]
  · intro i hi hhit hfirst
    unfold detectarContrato busca
    rw [buscaDesde_first (Nat.zero_le i) (by omega) hhit (fun j _ hj => hfirst j hj)]

/-- C2, witness for the amended theorem at a concrete corpus: the hit on
page 2 makes the contract body end at page 1. -/
theorem C2_amended_witness :
    (detectarContrato ["CONTRATO DE TRABAJO", "x", "Formulario 1604", "y"]).2 = 1 := by
  have h := (C2_amended ["CONTRATO DE TRABAJO", "x", "Formulario 1604", "y"]).2.2
    2 (by decide) (by decide) (by decide)
  simpa using h

/-! ### Claim C3 — two-tier tax-registration detection -/

/-- C3: tier 2 of `_detectar_alta_sunat` is consulted only when no page
matches a tier-1 marker, in which case the start is the first tier-2 hit;
and whenever the page before the first tier-2 hit contains a tier-1 marker,
the start equals that previous page — this last condition can never arise
(tier 2 runs only when no page at all holds a tier-1 marker), so the code
satisfies it vacuously: no back-up ever happens. -/
theorem C3_sunat_niveles (ps : List String) :
    ((∃ k, k < ps.length ∧ priSunat (pagina ps k) = true) →
      (detectarAltaSunat ps).1 = busca (fun i => priSunat (pagina ps i)) ps.length) ∧
    ((∀ k, k < ps.length → priSunat (pagina ps k) = false) →
      (detectarAltaSunat ps).1 = busca (fun i => secSunat (pagina ps i)) ps.length) ∧
    (∀ j, (∀ k, k < ps.length → priSunat (pagina ps k) = false) →
      busca (fun i => secSunat (pagina ps i)) ps.length = some j →
      0 < j → priSunat (pagina ps (j - 1)) = true →
      (detectarAltaSunat ps).1 = some (j - 1)) := by
  refine ⟨?_, ?_, ?_⟩
  · rintro ⟨k, hk, hpri⟩
    unfold detectarAltaSunat
    cases h : busca (fun i => priSunat (pagina ps i)) ps.length with
    | none =>
      have := buscaDesde_none.mp h k (Nat.zero_le _) (by omega)
      simp [hpri] at this
    | some s =>
      cases h2 : busca (fun i => secSunat (pagina ps i)) ps.length <;> simp [h]
  · intro h
    unfold detectarAltaSunat
    have hnone : busca (fun i => priSunat (pagina ps i)) ps.length = none :=
      buscaDesde_none.mpr (fun j _ hj => h j (by omega))
    rw [hnone]
    cases h2 : busca (fun i => secSunat (pagina ps i)) ps.length <;> simp
  · intro j hnopri hsec hpos hpri
    have hb := buscaDesde_some hsec
    exact absurd hpri (by simp [hnopri (j - 1) (by omega)])

/-- C3, witness: a corpus with no tier-1 marker anywhere and a tier-2 marker
on page 1 yields start page 1. -/
theorem C3_witness : (detectarAltaSunat ["", "T-REGISTRO x"]).1 = some 1 := by
  have h := (C3_sunat_niveles ["", "T-REGISTRO x"]).2.1 (by decide)
  rw [h]
  decide

/-! ### Claim C7 — extraction-time range clamping -/

/-- C7, counterexample: a requested range `{inicio: 5, fin: 10}` on a
3-page document has its end exceeding the document length, yet
`extraer_seccion_pdf` raises `ValueError` instead of clamping silently. -/
theorem C7_counterexample :
    extraerSeccionPdfRango 5 10 3 = .error .inicioExcede ∧ (3 : Int) < 10 :=
  ⟨rfl, by decide⟩

/-- C7, amended: when the requested end exceeds the document length, both
extractors clamp the end to the document length; the contratos extractor
never errors, and the renovaciones extractor does not error provided the
0-based start `max(inicio - 1, 0)` is below the document length — when the
start also exceeds the document it raises `ValueError` instead. -/
theorem C7_amended (inicio fin total : Int) (hf : total < fin) :
    (max (inicio - 1) 0 < total →
      extraerSeccionPdfRango inicio fin total = .ok (rangoInt (max (inicio - 1) 0) total) ∧
      extraerSeccionRango inicio fin total = rangoInt (max (inicio - 1) 0) total) ∧
    (total ≤ max (inicio - 1) 0 →
      extraerSeccionPdfRango inicio fin total = .error .inicioExcede) := by
  constructor
  · intro hlt
    unfold extraerSeccionPdfRango extraerSeccionRango
    rw [if_neg (by omega), if_neg (by omega), min_eq_right (by omega)]
    exact ⟨rfl, rfl⟩
  · intro hge
    unfold extraerSeccionPdfRango
    rw [if_pos (by omega)]

/-- C7, witness: `{inicio: 2, fin: 10}` on a 3-page document is clamped to
0-based pages `[1, 2]` by both extractors, with no error. -/
theorem C7_amended_witness :
    extraerSeccionPdfRango 2 10 3 = .ok [1, 2] ∧ extraerSeccionRango 2 10 3 = [1, 2] := by
  have h := (C7_amended 2 10 3 (by decide)).1 (by decide)
  have e : rangoInt (max ((2 : Int) - 1) 0) 3 = [1, 2] := by decide
  exact ⟨by rw [h.1, e], by rw [h.2, e]⟩

/-! ### Claim C9 — 0-based/1-based round-trip -/

/-- C9: a 0-based detected range `[s, e]` with `e` inside the document is
persisted by `_format_rango` as the 1-based `{inicio: s+1, fin: e+1}`, and
feeding that persisted range to `extraer_seccion_pdf` copies exactly the
0-based pages `s, ..., e` — the round trip is the identity on pages, with
no off-by-one. -/
theorem C9_roundtrip (s e total : Nat) (hse : s ≤ e) (het : e < total) :
    formatRango (some s, some e) = some (some (s + 1), some (e + 1)) ∧
    extraerSeccionPdfRango ((s : Int) + 1) ((e : Int) + 1) total =
      .ok (rangoInt s ((e : Int) + 1)) ∧
    (∀ p : Int, p ∈ rangoInt s ((e : Int) + 1) ↔ (s : Int) ≤ p ∧ p ≤ e) := by
  refine ⟨rfl, ?_, ?_⟩
  · unfold extraerSeccionPdfRango
    rw [if_neg (by omega), if_neg (by omega), min_eq_left (by omega),
      max_eq_left (by omega)]
    norm_num
  · intro p
    rw [mem_rangoInt]
    omega

/-- C9, witness: the known section at 1-based pages `[3, 7]` (0-based
`[2, 6]`) in a 10-page document persists as `{inicio: 3, fin: 7}` and
re-extracts exactly 0-based pages 2..6, i.e. 1-based 3..7. -/
theorem C9_roundtrip_witness :
    formatRango (some 2, some 6) = some (some 3, some 7) ∧
    extraerSeccionPdfRango 3 7 10 = .ok [2, 3, 4, 5, 6] := by
  have h := C9_roundtrip 2 6 10 (by decide) (by decide)
  refine ⟨h.1, ?_⟩
  have h2 := h.2.1
  have e : rangoInt ((2 : Nat) : Int) (((6 : Nat) : Int) + 1) = [2, 3, 4, 5, 6] := by decide
  rw [e] at h2
  norm_num at h2 ⊢
  exact h2

/-! ### Claim C10 — reimbursement fallback to the first title page -/

/-- C10: when at least one page matches a reimbursement title pattern and no
title-matching page holds any acknowledgment pattern, the detector returns
the first title-matching page as a single-page range. -/
theorem C10_reembolso (ps : List String) (i : Nat) (hi : i < ps.length)
    (ht : tituloReembolso (pagina ps i) = true)
    (hfirst : ∀ j, j < i → tituloReembolso (pagina ps j) = false)
    (hnoc : ∀ j, j < ps.length → tituloReembolso (pagina ps j) = true →
      constanciaReembolso (pagina ps j) = false) :
    detectarPoliticaReembolso ps = (some i, some i) := by
  unfold detectarPoliticaReembolso
  have hmem : i ∈ indicesDesde (fun i => tituloReembolso (pagina ps i)) 0 ps.length :=
    mem_indicesDesde.mpr ⟨Nat.zero_le _, by omega, ht⟩
  cases hl : indicesDesde (fun i => tituloReembolso (pagina ps i)) 0 ps.length with
  | nil => rw [hl] at hmem; simp at hmem
  | cons p0 rest =>
    have hfind : (p0 :: rest).reverse.find?
        (fun j => constanciaReembolso (pagina ps j)) = none := by
      rw [List.find?_eq_none]
      intro x hx
      rw [List.mem_reverse, ← hl] at hx
      obtain ⟨_, hx2, hx3⟩ := mem_indicesDesde.mp hx
      simp [hnoc x (by omega) hx3]
    show (match (p0 :: rest).reverse.find? (fun i => constanciaReembolso (pagina ps i)) with
      | some p => (some p, some p)
      | none => (some p0, some p0)) = (some i, some i)
    rw [hfind]
    have hhead := indicesDesde_head hl
    have hp0 : p0 = i := by
      rw [hl] at hmem
      rcases List.mem_cons.mp hmem with rfl | hmem2
      · rfl
      · by_cases hpi : p0 < i
        · exact absurd hhead.2.1 (by simp [hfirst p0 hpi])
        · have : i < p0 ∨ i = p0 := by omega
          rcases this with hlt | rfl
          · exact absurd ht (by simp [hhead.2.2 i (Nat.zero_le _) hlt])
          · rfl
    rw [hp0]

/-- C10, witness: one title page (page 1) without acknowledgment patterns
yields `(some 1, some 1)`. -/
theorem C10_reembolso_witness :
    detectarPoliticaReembolso ["x", "Política de gestión de viajes y reembolso"] =
      (some 1, some 1) :=
  C10_reembolso _ 1 (by decide) (by decide) (by decide) (by decide)

/-! ### Claim C4 — RISST threshold and tie-breaking -/

/-- C4, counterexample: two pages with an identical match count of exactly 2
(the threshold) — `_detectar_risst_2025` returns the earlier page 0, not the
later page 1: Python `list.sort` is stable, so `reverse=True` keeps the
original order among tied pages and `[0]` is the first-seen maximum. -/
theorem C4_counterexample :
    cuentaRisst "RISST RISTT" = 2 ∧
    detectarRisst2025 ["RISST RISTT", "RISST RISTT"] = (some 0, some 0) ∧
    (0 : Nat) ≠ 1 := by
  refine ⟨by decide, by decide, by decide⟩

/-- C4, amended: a page with fewer than 2 matches is never accepted (so
exactly `N-1 = 1` of the required markers is rejected and exactly `N = 2`
is accepted as a candidate); when candidates exist, the detector returns the
page with the highest match count as a single-page range, with ties broken
in favour of the **earlier** page. -/
theorem C4_amended (ps : List String) :
    ((∀ i, i < ps.length → cuentaRisst (pagina ps i) < 2) →
      detectarRisst2025 ps = (none, none)) ∧
    ((∃ i, i < ps.length ∧ 2 ≤ cuentaRisst (pagina ps i)) →
      detectarRisst2025 ps ≠ (none, none)) ∧
    (∀ i, detectarRisst2025 ps = (some i, some i) →
      i < ps.length ∧ 2 ≤ cuentaRisst (pagina ps i) ∧
      ∀ j, j < ps.length → 2 ≤ cuentaRisst (pagina ps j) →
        cuentaRisst (pagina ps j) ≤ cuentaRisst (pagina ps i) ∧
        (cuentaRisst (pagina ps j) = cuentaRisst (pagina ps i) → i ≤ j)) := by
  have hpair : (candidatosRisst ps).Pairwise (fun p q => p.1 < q.1) := by
    unfold candidatosRisst
    exact List.Pairwise.map _ (fun a b h => h) indicesDesde_pairwise
  refine ⟨?_, ?_, ?_⟩
  · intro h
    have hnil : indicesDesde (fun i => decide (2 ≤ cuentaRisst (pagina ps i))) 0 ps.length
        = [] := by
      rw [indicesDesde_nil]
      intro j _ hj2
      have := h j (by omega)
      simp
      omega
    unfold detectarRisst2025 candidatosRisst
    rw [hnil]
    rfl
  · rintro ⟨i, hi, hcnt⟩
    have hmem : i ∈ indicesDesde (fun i => decide (2 ≤ cuentaRisst (pagina ps i)))
        0 ps.length :=
      mem_indicesDesde.mpr ⟨Nat.zero_le _, by omega, by simp [hcnt]⟩
    intro hcontra
    cases hm : mejorPagina (candidatosRisst ps) with
    | none =>
      have hnil := mejorPagina_eq_none.mp hm
      unfold candidatosRisst at hnil
      rw [List.map_eq_nil_iff] at hnil
      rw [hnil] at hmem
      simp at hmem
    | some y =>
      unfold detectarRisst2025 at hcontra
      rw [hm] at hcontra
      change (some y.1, some y.1) = (none, none) at hcontra
      simp at hcontra
  · intro i h
    cases hm : mejorPagina (candidatosRisst ps) with
    | none =>
      unfold detectarRisst2025 at h
      rw [hm] at h
      change ((none : Option Nat), (none : Option Nat)) = (some i, some i) at h
      simp at h
    | some y =>
      unfold detectarRisst2025 at h
      rw [hm] at h
      change (some y.1, some y.1) = (some i, some i) at h
      have hy1 : y.1 = i := by simpa using congrArg Prod.fst h
      obtain ⟨hy_mem, hbest⟩ := mejorPagina_spec hpair hm
      unfold candidatosRisst at hy_mem
      rw [List.mem_map] at hy_mem
      obtain ⟨i0, hi0_mem, hi0_eq⟩ := hy_mem
      obtain ⟨-, hi0_lt, hi0_P⟩ := mem_indicesDesde.mp hi0_mem
      subst hi0_eq
      simp only at hy1
      subst hy1
      rw [decide_eq_true_eq] at hi0_P
      refine ⟨by omega, hi0_P, ?_⟩
      intro j hj hj2
      have hj_mem : (j, cuentaRisst (pagina ps j)) ∈ candidatosRisst ps := by
        unfold candidatosRisst
        rw [List.mem_map]
        exact ⟨j, mem_indicesDesde.mpr ⟨Nat.zero_le _, by omega, by simp [hj2]⟩, rfl⟩
      obtain ⟨hle, htie⟩ := hbest _ hj_mem
      exact ⟨hle, fun he => htie he⟩

/-- C4, witness for the amended theorem: one candidate page below threshold
on no pages means a null result is impossible — a corpus with page 0 at
exactly the threshold yields a non-null detection. -/
theorem C4_amended_witness :
    detectarRisst2025 ["RISST RISTT", "nada"] ≠ (none, none) :=
  (C4_amended ["RISST RISTT", "nada"]).2.1 ⟨0, by decide, by decide⟩

/-! ### Claim C5 — hazard-guide extension scan -/

/-- A corpus with a valid hazard-guide start on page 1 followed by sixteen
continuation pages. -/
def corpusGuia : List String :=
  "" :: "Guía de tipos de peligros y riesgos asociados PELIGROS RIESGOS" ::
    List.replicate 16 "PELIGROS RIESGOS Page"

/-- C5, counterexample: the forward continuation scan of
`_detectar_guia_peligros` is not capped at any window of 5 to 15 pages — with
sixteen consecutive continuation pages the detected end is start + 16. -/
theorem C5_counterexample :
    detectarGuiaPeligros corpusGuia (some 0) = (some 1, some 17) ∧
    ¬(17 - 1 ≤ 15) := by
  refine ⟨by decide, by decide⟩

/-- C5, amended: once a valid start is found (title phrase plus at least 2
validation markers, searched only after the tax-registration end), the end
extends forward page by page while each page holds at least 3 continuation
markers, stopping at the first page that fails that threshold or at the end
of the document; there is no fixed window cap on the forward scan. -/
theorem C5_amended (ps : List String) (fs s f : Nat)
    (h : detectarGuiaPeligros ps (some fs) = (some s, some f)) :
    fs + 1 ≤ s ∧ s < ps.length ∧
    tituloGuia (pagina ps s) = true ∧ 2 ≤ valGuia (pagina ps s) ∧
    (∀ j, fs + 1 ≤ j → j < s →
      ¬(tituloGuia (pagina ps j) = true ∧ 2 ≤ valGuia (pagina ps j))) ∧
    s ≤ f ∧ f < ps.length ∧
    (∀ i, s < i → i ≤ f → 3 ≤ contGuia (pagina ps i)) ∧
    (f + 1 < ps.length → contGuia (pagina ps (f + 1)) < 3) := by
  unfold detectarGuiaPeligros at h
  simp only [inicioBusquedaGuia] at h
  cases hb : buscaDesde
      (fun i => tituloGuia (pagina ps i) && decide (2 ≤ valGuia (pagina ps i)))
      (fs + 1) (ps.length - (fs + 1)) with
  | none =>
    rw [hb] at h
    change ((none : Option Nat), (none : Option Nat)) = (some s, some f) at h
    simp at h
  | some s0 =>
    rw [hb] at h
    change (some s0, some (s0 + racha _ (s0 + 1) (ps.length - (s0 + 1)))) = (some s, some f)
      at h
    have hs : s0 = s := by simpa using congrArg Prod.fst h
    subst hs
    have hf : s0 + racha (fun i => decide (3 ≤ contGuia (pagina ps i))) (s0 + 1)
        (ps.length - (s0 + 1)) = f := by simpa using congrArg Prod.snd h
    obtain ⟨hb1, hb2, hb3, hb4⟩ := buscaDesde_some hb
    have hsn : s0 < ps.length := by omega
    obtain ⟨hr1, hr2, hr3⟩ :=
      @racha_spec (fun i => decide (3 ≤ contGuia (pagina ps i)))
        (ps.length - (s0 + 1)) (s0 + 1)
    rw [Bool.and_eq_true, decide_eq_true_eq] at hb3
    refine ⟨hb1, hsn, hb3.1, hb3.2, ?_, by omega, by omega, ?_, ?_⟩
    · intro j hj1 hj2
      have hfalse := hb4 j hj1 hj2
      intro hcon
      rcases hcon with ⟨ht, hv⟩
      rw [ht] at hfalse
      simp at hfalse
      omega
    · intro i hi1 hi2
      have hk := hr2 (i - (s0 + 1)) (by omega)
      have : s0 + 1 + (i - (s0 + 1)) = i := by omega
      rw [this] at hk
      simpa using hk
    · intro hlt
      have hk := hr3 (by omega)
      have : s0 + 1 + racha (fun i => decide (3 ≤ contGuia (pagina ps i))) (s0 + 1)
          (ps.length - (s0 + 1)) = f + 1 := by omega
      rw [this] at hk
      simp at hk
      omega

/-- C5, witness for the amended theorem on the sixteen-continuation corpus:
every extension page indeed holds at least 3 continuation markers. -/
theorem C5_amended_witness :
    3 ≤ contGuia (pagina corpusGuia 2) ∧ (17 : Nat) < corpusGuia.length := by
  have h := C5_amended corpusGuia 0 1 17 (by decide)
  exact ⟨h.2.2.2.2.2.2.2.1 2 (by decide) (by decide), h.2.2.2.2.2.2.1⟩

/-! ### Claim C6 — dependent-beneficiary gap inference -/

theorem dhPrioridad1_vacias {ps : List String} {fa : Option Nat} {i f : Nat}
    (h : dhPrioridad1 ps fa = some (i, f)) :
    ∀ p, i ≤ p → p ≤ f → esPaginaVaciaOFirma ps p = true := by
  cases fa with
  | none => simp [dhPrioridad1] at h
  | some fa0 =>
    simp only [dhPrioridad1] at h
    cases hs : encontrarSiguienteSeccion ps (fa0 + 1) with
    | none => rw [hs] at h; simp at h
    | some sig =>
      rw [hs] at h
      change (if fa0 + 1 ≤ sig - 1 ∧ fa0 + 1 < ps.length then
          if todasDesde (esPaginaVaciaOFirma ps) (fa0 + 1) (sig - 1 + 1 - (fa0 + 1)) then
            some (fa0 + 1, sig - 1)
          else none
        else none) = some (i, f) at h
      split at h
      next hcond =>
        split at h
        next hall =>
          injection h with h
          injection h with h1 h2
          subst h1
          subst h2
          intro p hp1 hp2
          exact todasDesde_spec.mp hall p hp1 (by omega)
        next hall => simp at h
      next hcond => simp at h

theorem dhPrioridad2_vacia {ps : List String} {g : Option Nat} {i f : Nat}
    (h : dhPrioridad2 ps g = some (i, f)) :
    i = f ∧ esPaginaVaciaOFirma ps i = true := by
  cases g with
  | none => simp [dhPrioridad2] at h
  | some g0 =>
    simp only [dhPrioridad2] at h
    split at h
    next hg =>
      split at h
      next hv =>
        injection h with h
        injection h with h1 h2
        subst h1
        subst h2
        exact ⟨rfl, hv⟩
      next hv => simp at h
    next hg => simp at h

theorem dhPrioridad3_vacia {ps : List String} {fa : Option Nat} {i f : Nat}
    (h : dhPrioridad3 ps fa = some (i, f)) :
    i = f ∧ esPaginaVaciaOFirma ps i = true := by
  cases fa with
  | none => simp [dhPrioridad3] at h
  | some fa0 =>
    simp only [dhPrioridad3] at h
    split at h
    next hg =>
      split at h
      next hv =>
        injection h with h
        injection h with h1 h2
        subst h1
        subst h2
        exact ⟨rfl, hv⟩
      next hv => simp at h
    next hg => simp at h

/-- Hazard-guide title page with more than 200 characters, the section
following the gap in the scenario corpora. -/
def paginaGuiaTitulo : String :=
  "GUÍA DE TIPOS DE PELIGROS Y RIESGOS ASOCIADOS " ++ String.mk (List.replicate 170 'b')

/-- Scenario corpus: the gap page between the tax-registration end (page 0)
and the hazard guide (page 2) holds exactly 40 characters. -/
def corpusGapCorto : List String :=
  ["sunat", "pagina corta de cuarenta caracteres aqui", paginaGuiaTitulo]

/-- A 300-character gap page containing the string `REGLAMENTO`. -/
def paginaReglamento : String := "REGLAMENTO" ++ String.mk (List.replicate 290 'a')

/-- Scenario corpus: the gap page holds 300 characters including
`REGLAMENTO`. -/
def corpusGapReglamento : List String := ["sunat", paginaReglamento, paginaGuiaTitulo]

/-- C6: every page of a non-null dependent-beneficiary range is judged
near-empty by `_es_pagina_vacia_o_firma` (in the gap strategy the whole gap
is checked; both fallbacks check their single page); on the scenario corpus
whose single gap page holds 40 characters the section is exactly that page,
and on the corpus whose gap page holds 300 characters including
`REGLAMENTO` the section is null. -/
theorem C6_derechohabiente :
    (∀ (ps : List String) (finAlta inicioGuia : Option Nat) (i f : Nat),
      detectarAltaDerechohabiente ps finAlta inicioGuia = (some i, some f) →
      ∀ p, i ≤ p → p ≤ f → esPaginaVaciaOFirma ps p = true) ∧
    detectarAltaDerechohabiente corpusGapCorto (some 0) (some 2) = (some 1, some 1) ∧
    (corpusGapCorto.getD 1 "").length = 40 ∧
    detectarAltaDerechohabiente corpusGapReglamento (some 0) (some 2) = (none, none) ∧
    (corpusGapReglamento.getD 1 "").length = 300 ∧
    contieneCS (corpusGapReglamento.getD 1 "") "REGLAMENTO" = true := by
  refine ⟨?_, by decide, by decide, by decide, by decide, by decide⟩
  intro ps finAlta inicioGuia i f h
  unfold detectarAltaDerechohabiente at h
  cases h1 : dhPrioridad1 ps finAlta with
  | some v =>
    obtain ⟨i0, f0⟩ := v
    rw [h1] at h
    change (some i0, some f0) = (some i, some f) at h
    have hi : i0 = i := by simpa using congrArg Prod.fst h
    have hf : f0 = f := by simpa using congrArg (fun q : Option Nat × Option Nat => q.2) h
    subst hi
    subst hf
    exact dhPrioridad1_vacias h1
  | none =>
    rw [h1] at h
    cases h2 : dhPrioridad2 ps inicioGuia with
    | some v =>
      obtain ⟨i0, f0⟩ := v
      rw [h2] at h
      change (some i0, some f0) = (some i, some f) at h
      have hi : i0 = i := by simpa using congrArg Prod.fst h
      have hf : f0 = f := by simpa using congrArg (fun q : Option Nat × Option Nat => q.2) h
      obtain ⟨hif, hvac⟩ := dhPrioridad2_vacia h2
      intro p hp1 hp2
      have hpi : p = i0 := by omega
      subst hpi
      exact hvac
    | none =>
      rw [h2] at h
      cases h3 : dhPrioridad3 ps finAlta with
      | some v =>
        obtain ⟨i0, f0⟩ := v
        rw [h3] at h
        change (some i0, some f0) = (some i, some f) at h
        have hi : i0 = i := by simpa using congrArg Prod.fst h
        have hf : f0 = f := by simpa using congrArg (fun q : Option Nat × Option Nat => q.2) h
        obtain ⟨hif, hvac⟩ := dhPrioridad3_vacia h3
        intro p hp1 hp2
        have hpi : p = i0 := by omega
        subst hpi
        exact hvac
      | none =>
        rw [h3] at h
        simp at h

/-- C6, witness: the detector applied to the 40-character-gap corpus returns
page 1, and that page is indeed judged near-empty. -/
theorem C6_derechohabiente_witness : esPaginaVaciaOFirma corpusGapCorto 1 = true :=
  C6_derechohabiente.1 corpusGapCorto (some 0) (some 2) 1 1 C6_derechohabiente.2.1 1
    (Nat.le_refl 1) (Nat.le_refl 1)

/-! ### Claim C8 — date extraction and calendar validation -/

theorem data_append (s t : String) : (s ++ t).data = s.data ++ t.data := by
  cases s
  cases t
  rfl

theorem separa_sin_sep {c : Char} :
    ∀ {xs : List Char}, (∀ x ∈ xs, x ≠ c) → separa c xs = [xs] := by
  intro xs
  induction xs with
  | nil => intro _; rfl
  | cons x t ih =>
    intro h
    have hx : x ≠ c := h x (List.mem_cons_self _ _)
    simp only [separa, if_neg hx]
    rw [ih (fun y hy => h y (List.mem_cons_of_mem _ hy))]

theorem separa_parte {c : Char} :
    ∀ {xs ys : List Char}, (∀ x ∈ xs, x ≠ c) →
      separa c (xs ++ c :: ys) = xs :: separa c ys := by
  intro xs
  induction xs with
  | nil => intro ys _; simp [separa]
  | cons x t ih =>
    intro ys h
    have hx : x ≠ c := h x (List.mem_cons_self _ _)
    have iht := @ih ys (fun y hy => h y (List.mem_cons_of_mem _ hy))
    simp only [List.cons_append, separa, if_neg hx, List.append_eq, iht]

theorem esDigito_ne_barra {x : Char} (h : esDigito x = true) : x ≠ '/' := by
  intro he
  subst he
  simp [esDigito] at h

theorem esNumerico_sin_barra {s : List Char} (h : esNumerico s = true) :
    ∀ x ∈ s, x ≠ '/' := by
  intro x hx
  unfold esNumerico at h
  rw [Bool.and_eq_true, List.all_eq_true] at h
  exact esDigito_ne_barra (h.2 x hx)

/-- C8: `_extraer_fecha_sunat` is the three-pattern fallback chain — the
primary, secondary and tertiary regular expressions are tried in order of
decreasing specificity and the first capture is normalised by
`_convertir_fecha_a_formato`; a missing section gives `None`; and the
normaliser maps every string `DD/MM/YYYY` holding an invalid calendar date
to `None` (never an exception), while a valid one is formatted `MM.YYYY`. -/
theorem C8_fecha :
    (∀ (ps : List String) (finS : Option Nat), extraerFechaSunat ps none finS = none) ∧
    (∀ (ps : List String) (i0 : Nat) (finS : Option Nat),
      extraerFechaSunat ps (some i0) finS =
        (((patronPrincipal (textoSunat ps i0 finS)).orElse
            fun _ => (patronSecundario (textoSunat ps i0 finS)).orElse
              fun _ => patronTerciario (textoSunat ps i0 finS)).bind
          fun d => convertirFecha d)) ∧
    (∀ d m a : String, esNumerico d.data = true → esNumerico m.data = true →
      esNumerico a.data = true →
      fechaValida (natDe d.data) (natDe m.data) (natDe a.data) = false →
      convertirFecha (d ++ "/" ++ m ++ "/" ++ a) = none) ∧
    (∀ d m a : String, esNumerico d.data = true → esNumerico m.data = true →
      esNumerico a.data = true →
      fechaValida (natDe d.data) (natDe m.data) (natDe a.data) = true →
      convertirFecha (d ++ "/" ++ m ++ "/" ++ a) =
        some (String.mk (zfill2 m.data ++ '.' :: a.data))) := by
  have hsep : ∀ d m a : String, esNumerico d.data = true → esNumerico m.data = true →
      esNumerico a.data = true →
      separa '/' (d ++ "/" ++ m ++ "/" ++ a).data = [d.data, m.data, a.data] := by
    intro d m a hd hm ha
    have h1 : (d ++ "/" ++ m ++ "/" ++ a).data
        = d.data ++ '/' :: (m.data ++ '/' :: a.data) := by
      rw [data_append, data_append, data_append]
      simp [String.data]
    rw [h1, separa_parte (esNumerico_sin_barra hd),
      separa_parte (esNumerico_sin_barra hm), separa_sin_sep (esNumerico_sin_barra ha)]
  refine ⟨fun ps finS => rfl, ?_, ?_, ?_⟩
  · intro ps i0 finS
    unfold extraerFechaSunat
    cases h1 : patronPrincipal (textoSunat ps i0 finS) with
    | some d => simp [h1, Option.orElse]
    | none =>
      cases h2 : patronSecundario (textoSunat ps i0 finS) with
      | some d => simp [h1, h2, Option.orElse]
      | none =>
        cases h3 : patronTerciario (textoSunat ps i0 finS) with
        | some d => simp [h1, h2, h3, Option.orElse]
        | none => simp [h1, h2, h3, Option.orElse]
  · intro d m a hd hm ha hval
    unfold convertirFecha
    rw [hsep d m a hd hm ha]
    simp [hd, hm, ha, hval]
  · intro d m a hd hm ha hval
    unfold convertirFecha
    rw [hsep d m a hd hm ha]
    simp [hd, hm, ha, hval]

/-- C8, witness: the invalid calendar date `"31/02/2025"` (February 31)
normalises to `None`, and a valid date normalises to `MM.YYYY`. -/
theorem C8_fecha_witness :
    convertirFecha ("31" ++ "/" ++ "02" ++ "/" ++ "2025") = none ∧
    convertirFecha ("15" ++ "/" ++ "03" ++ "/" ++ "2024") =
      some (String.mk (zfill2 "03".data ++ '.' :: "2024".data)) :=
  ⟨C8_fecha.2.2.1 "31" "02" "2025" (by decide) (by decide) (by decide) (by decide),
   C8_fecha.2.2.2 "15" "03" "2024" (by decide) (by decide) (by decide) (by decide)⟩

/-! ### Claim C1 — Overlap Resolver invariant (renewal family) -/

theorem empujaInicio_fin (r : RangoR) (m : Option RangoR) :
    (empujaInicio r m).fin = r.fin := by
  cases m with
  | none => rfl
  | some c =>
    simp only [empujaInicio]
    split <;> rfl

theorem empujaInicio_gt {r c : RangoR} (h0 : c.inicio = 0) :
    c.fin < (empujaInicio r (some c)).inicio := by
  simp only [empujaInicio]
  split
  next hc => exact Nat.lt_succ_self _
  next hc =>
    rw [h0] at hc
    simp only [not_and, not_le] at hc
    exact hc (Nat.zero_le _)

theorem empujaInicio_sep (r g : RangoR) :
    g.fin < (empujaInicio r (some g)).inicio ∨ (empujaInicio r (some g)).inicio < g.inicio := by
  simp only [empujaInicio]
  split
  next hc => left; exact Nat.lt_succ_self _
  next hc =>
    rw [not_and_or, not_le, not_le] at hc
    rcases hc with hc | hc
    · right; exact hc
    · left; exact hc

theorem empujaInicio_gt2 {x c g : RangoR} (h1 : c.fin < x.inicio) :
    c.fin < (empujaInicio x (some g)).inicio := by
  simp only [empujaInicio]
  split
  next hcond =>
    have h2 := hcond.2
    show c.fin < g.fin + 1
    omega
  next hcond => exact h1

theorem empujaInicio_mono (r : RangoR) (m : Option RangoR) :
    r.inicio ≤ (empujaInicio r m).inicio := by
  cases m with
  | none => exact Nat.le_refl _
  | some c =>
    simp only [empujaInicio]
    split
    next hc => exact Nat.le_succ_of_le hc.2
    next hc => exact Nat.le_refl _

/-- C1, counterexample: contract `[0,5]`, hazard guide `[8,10]`, audit
`[6,12]`. No start is contained in a higher-priority range, so the resolver
changes nothing; the audit (lower priority) keeps `start = 6`, which is not
greater than the hazard guide's (higher priority) `end = 10` — the claimed
invariant `B.start > A.end` fails even though both ranges are non-null. -/
theorem C1_counterexample :
    resolverSolapamientos (some ⟨0, 5⟩) (some ⟨8, 10⟩) (some ⟨6, 12⟩) =
      (some ⟨0, 5⟩, some ⟨8, 10⟩, some ⟨6, 12⟩) ∧ ¬(10 < 6) := by
  exact ⟨rfl, by decide⟩

/-- C1, amended: under the renewal-family prior that the contract range
starts at page 0, the resolver guarantees: the contract is untouched and no
section's end ever changes (nothing shrinks); every lower-priority non-null
start ends up strictly past the contract's end; for the hazard/audit pair
the audit start never lies inside the hazard's resolved range — it is either
strictly past its end or strictly before its start (pure containment is
repaired by pushing the contained start to the higher-priority end + 1, as
the mechanism states, but a lower start that precedes the higher range is
left in place, so `B.start > A.end` cannot be promised for that pair). -/
theorem C1_amended (co gu au : Option RangoR)
    (hc : ∀ c, co = some c → c.inicio = 0) :
    (resolverSolapamientos co gu au).1 = co ∧
    ((resolverSolapamientos co gu au).2.1).map RangoR.fin = gu.map RangoR.fin ∧
    ((resolverSolapamientos co gu au).2.2).map RangoR.fin = au.map RangoR.fin ∧
    (∀ c g, co = some c → (resolverSolapamientos co gu au).2.1 = some g →
      c.fin < g.inicio) ∧
    (∀ c a, co = some c → (resolverSolapamientos co gu au).2.2 = some a →
      c.fin < a.inicio) ∧
    (∀ g a, (resolverSolapamientos co gu au).2.1 = some g →
      (resolverSolapamientos co gu au).2.2 = some a →
      g.fin < a.inicio ∨ a.inicio < g.inicio) ∧
    (∀ c g0, co = some c → gu = some g0 → c.inicio ≤ g0.inicio → g0.inicio ≤ c.fin →
      (resolverSolapamientos co gu au).2.1 = some ⟨c.fin + 1, g0.fin⟩) := by
  refine ⟨rfl, ?_, ?_, ?_, ?_, ?_, ?_⟩
  · cases gu <;> simp [resolverSolapamientos, empujaInicio_fin]
  · cases au <;> cases gu <;> simp [resolverSolapamientos, empujaInicio_fin]
  · rintro c g rfl hg
    cases gu with
    | none => simp [resolverSolapamientos] at hg
    | some g0 =>
      simp only [resolverSolapamientos, Option.map] at hg
      injection hg with hg
      subst hg
      exact empujaInicio_gt (hc c rfl)
  · rintro c a rfl ha
    cases au with
    | none => simp [resolverSolapamientos] at ha
    | some a0 =>
      cases gu with
      | none =>
        simp only [resolverSolapamientos, Option.map] at ha
        injection ha with ha
        subst ha
        exact empujaInicio_gt (hc c rfl)
      | some g0 =>
        simp only [resolverSolapamientos, Option.map] at ha
        injection ha with ha
        subst ha
        exact empujaInicio_gt2 (empujaInicio_gt (hc c rfl))
  · intro g a hg ha
    cases gu with
    | none => simp [resolverSolapamientos] at hg
    | some g0 =>
      cases au with
      | none => simp [resolverSolapamientos] at ha
      | some a0 =>
        simp only [resolverSolapamientos, Option.map] at hg ha
        injection hg with hg
        injection ha with ha
        subst hg
        subst ha
        exact empujaInicio_sep _ _
  · rintro c g0 rfl rfl hc1 hc2
    simp only [resolverSolapamientos, Option.map]
    have hpush : empujaInicio g0 (some c) = ⟨c.fin + 1, g0.fin⟩ := by
      simp only [empujaInicio]
      rw [if_pos ⟨hc1, hc2⟩]
    rw [hpush]

/-- C1, witness for the amended theorem: contract `[0,3]`, hazard `[2,6]`,
audit `[1,9]` resolve to contract `[0,3]`, hazard `[4,6]`, audit `[7,9]`:
ends unchanged, every lower start past the contract end, audit past the
hazard end. -/
theorem C1_amended_witness :
    (resolverSolapamientos (some ⟨0, 3⟩) (some ⟨2, 6⟩) (some ⟨1, 9⟩)).1 = some ⟨0, 3⟩ ∧
    (3 : Nat) < 4 ∧ (6 : Nat) < 7 := by
  have h := C1_amended (some ⟨0, 3⟩) (some ⟨2, 6⟩) (some ⟨1, 9⟩)
    (fun c hcc => by injection hcc with hcc; rw [← hcc])
  refine ⟨h.1, ?_, ?_⟩
  · have h4 := h.2.2.2.1 ⟨0, 3⟩ ⟨4, 6⟩ rfl (by decide)
    exact h4
  · have h6 := h.2.2.2.2.2.1 ⟨4, 6⟩ ⟨7, 9⟩ (by decide) (by decide)
    rcases h6 with h2 | h2
    · exact h2
    · exact absurd h2 (by decide)

end DocSplit
